import Mathlib

/-!
Shallow embedding of `src/components/InputArea.tsx`.

The component's event handlers are pure functions of the props
(`disabled`, `isGenerating`), the local state (`prompt`, `isDragging`)
and the event payload.  A handler's observable behaviour is the list of
`onGenerate` calls it makes, the list of `alert` notices it raises, and
the state updates it performs; we record these explicitly.
-/

namespace InputArea

/-- JS `String.prototype.startsWith(p)`: is `p` a leading substring of `s`. -/
def jsStartsWith (s p : String) : Bool := p.data.isPrefixOf s.data

/-- JS `String.prototype.trim()`: strip whitespace from both ends. -/
def jsTrim (s : String) : String :=
  ⟨((s.data.dropWhile Char.isWhitespace).reverse.dropWhile Char.isWhitespace).reverse⟩

/-- A file as the handlers see it: only its declared media type matters. -/
structure MFile where
  type : String
deriving DecidableEq, Repr

/-- Observable effects of one handler run: the `onGenerate(prompt, file?)`
invocations and the `alert(...)` notices, in order. -/
structure Effects where
  calls : List (String × Option MFile)
  alerts : List String
deriving DecidableEq, Repr

def emptyEffects : Effects := ⟨[], []⟩

/-- The rejection notice text from the source. -/
def alertMsg : String := "Please upload an image or PDF."

/-- `handleFile`: validate the media type, then either submit or alert.
It performs no state updates. -/
def handleFile (prompt : String) (file : MFile) : Effects :=
  if jsStartsWith file.type "image/" || file.type == "application/pdf" then
    { calls := [(prompt, some file)], alerts := [] }
  else
    { calls := [], alerts := [alertMsg] }

/-- `handleFileChange`: `if (e.target.files && e.target.files[0])` —
forward the first selected file to `handleFile`, else do nothing. -/
def handleFileChange (prompt : String) (files : List MFile) : Effects :=
  match files with
  | [] => emptyEffects
  | f :: _ => handleFile prompt f

/-- `disabled={isGenerating || disabled}` on the hidden file input. -/
def fileInputDisabled (isGenerating disabled : Bool) : Bool :=
  isGenerating || disabled

/-- The full picker path: the change event is only delivered when the
control is not disabled; then `handleFileChange` runs. -/
def pickFile (disabled isGenerating : Bool) (prompt : String)
    (files : List MFile) : Effects :=
  if fileInputDisabled isGenerating disabled then emptyEffects
  else handleFileChange prompt files

/-- Result of `handleDrop`: its effects together with the component state
it leaves behind (`setIsDragging` is the only state write; `prompt` is
never written by this handler). -/
structure DropOut where
  effects : Effects
  isDraggingAfter : Bool
  promptAfter : String
deriving DecidableEq, Repr

/-- `handleDrop`: `setIsDragging(false)`; if `disabled || isGenerating`
return; else validate the first file of the payload and submit or alert. -/
def handleDrop (disabled isGenerating : Bool) (prompt : String)
    (files : List MFile) : DropOut :=
  if disabled || isGenerating then ⟨emptyEffects, false, prompt⟩
  else
    match files with
    | [] => ⟨emptyEffects, false, prompt⟩
    | file :: _ =>
      if jsStartsWith file.type "image/" || file.type == "application/pdf" then
        ⟨⟨[(prompt, some file)], []⟩, false, prompt⟩
      else
        ⟨⟨[], [alertMsg]⟩, false, prompt⟩

/-- `handleDragOver`: set `isDragging` true only when neither disabled
nor generating; otherwise leave it unchanged. -/
def handleDragOver (disabled isGenerating : Bool) (isDragging : Bool) : Bool :=
  if !disabled && !isGenerating then true else isDragging

/-- `handleDragLeave`: unconditionally `setIsDragging(false)`. -/
def handleDragLeave (_isDragging : Bool) : Bool := false

/-- `handleTextSubmit`: submit the prompt with no file iff the trimmed
prompt is nonempty and neither generating nor disabled. -/
def handleTextSubmit (disabled isGenerating : Bool) (prompt : String) : Effects :=
  if jsTrim prompt != "" && !isGenerating && !disabled then
    ⟨[(prompt, none)], []⟩
  else emptyEffects

/-- `disabled={!prompt.trim() || isGenerating || disabled}` on the
submit button. -/
def submitButtonDisabled (prompt : String) (isGenerating disabled : Bool) : Bool :=
  jsTrim prompt == "" || isGenerating || disabled

/-- The full submit-button path: a click is only delivered when the
button is not disabled; then `handleTextSubmit` runs. -/
def clickSubmit (disabled isGenerating : Bool) (prompt : String) : Effects :=
  if submitButtonDisabled prompt isGenerating disabled then emptyEffects
  else handleTextSubmit disabled isGenerating prompt

/-- The Enter-key path on the text input: the input carries
`disabled={isGenerating || disabled}`, and the keydown handler fires
`handleTextSubmit` exactly on the Enter key. -/
def pressKey (disabled isGenerating : Bool) (key : String) (prompt : String) : Effects :=
  if isGenerating || disabled then emptyEffects
  else if key == "Enter" then handleTextSubmit disabled isGenerating prompt
  else emptyEffects

/-! ## Drag-state traces -/

/-- A drag-related event, carrying the prop values in force when it is
handled. -/
inductive DragEvt where
  | over (disabled isGenerating : Bool)
  | leave
  | drop (disabled isGenerating : Bool) (files : List MFile)
deriving DecidableEq, Repr

/-- The `isDragging` update each drag event performs, read off the three
handlers. -/
def dragStep (s : Bool) : DragEvt → Bool
  | .over d g => handleDragOver d g s
  | .leave => handleDragLeave s
  | .drop d g files => (handleDrop d g "" files).isDraggingAfter

/-- `isDragging` after a whole event trace, starting from the initial
`useState(false)`. -/
def runDrag (tr : List DragEvt) : Bool := tr.foldl dragStep false

/-- A terminal drag event: a leave or a drop. -/
def isTerminal : DragEvt → Bool
  | .leave => true
  | .drop _ _ _ => true
  | .over _ _ => false

/-! ## The cycling placeholder's timers

`CyclingText` runs `setInterval(f, 3000)` where each firing of `f` does
`setFade(false)` and schedules `setTimeout(g, 500)`, `g` being
`setIndex(prev => (prev + 1) % words.length); setFade(true)`.  We model
the timer environment as a queue of pending events ordered by firing
time; the component state is the pair `(index, fade)`. -/

/-- The phrase list of `CyclingText`. -/
def words : List String :=
  ["a napkin sketch",
   "a chaotic whiteboard",
   "a game level design",
   "a sci-fi interface",
   "a diagram of a machine",
   "an ancient scroll"]

/-- Which timer an event belongs to: the 3000 ms interval or a nested
500 ms timeout. -/
inductive TKind where
  | interval
  | timeout
deriving DecidableEq, Repr

/-- A pending timer event: its firing time (ms since mount) and kind. -/
structure Evt where
  time : Nat
  kind : TKind
deriving DecidableEq, Repr

/-- Insert an event into the queue, keeping it ordered by firing time. -/
def insertEvt (e : Evt) : List Evt → List Evt
  | [] => [e]
  | x :: xs => if e.time < x.time then e :: x :: xs else x :: insertEvt e xs

/-- The state update an event performs, read off the two callback bodies:
the interval callback runs `setFade(false)`; the timeout callback runs
`setIndex(prev => (prev + 1) % len)` and `setFade(true)`. -/
def applyEvt (len : Nat) (s : Nat × Bool) : TKind → Nat × Bool
  | .interval => (s.1, false)
  | .timeout => ((s.1 + 1) % len, true)

/-- The events an event schedules when it fires: an interval firing at
time `τ` schedules its 500 ms timeout at `τ + 500` and its own next
firing at `τ + 3000`; a timeout schedules nothing. -/
def sched (e : Evt) : List Evt :=
  match e.kind with
  | .interval => [⟨e.time + 500, .timeout⟩, ⟨e.time + 3000, .interval⟩]
  | .timeout => []

/-- Run the timer queue up to (and including) time `t`: fire the earliest
pending event while its time is at most `t`, applying its state update
and inserting the events it schedules.  `fuel` bounds the number of
firings. -/
def runT (len : Nat) : Nat → Nat → (Nat × Bool) → List Evt → (Nat × Bool) × List Evt
  | 0, _, s, q => (s, q)
  | _ + 1, _, s, [] => (s, [])
  | fuel + 1, t, s, e :: q =>
    if e.time ≤ t then
      runT len fuel t (applyEvt len s e.kind) ((sched e).foldl (fun acc x => insertEvt x acc) q)
    else (s, e :: q)

/-- At mount the effect schedules only the interval's first firing. -/
def initialQueue : List Evt := [⟨3000, .interval⟩]

/-- The `(index, fade)` state at time `t` after mounting at time 0.
At most `t / 3000` interval firings and as many timeouts can have
occurred by time `t`, so the fuel suffices. -/
def stateAt (len t : Nat) : Nat × Bool :=
  (runT len (2 * (t / 3000) + 2) t (0, true) initialQueue).1

/-- The pending-event queue at time `t`. -/
def queueAt (len t : Nat) : List Evt :=
  (runT len (2 * (t / 3000) + 2) t (0, true) initialQueue).2

/-- The effect cleanup is `() => clearInterval(interval)`: it removes the
pending interval firing but no pending timeout. -/
def cleanupQueue (q : List Evt) : List Evt :=
  q.filter (fun e => e.kind == TKind.timeout)

/-- The timer events still pending after unmounting at time `u`: these
fire later, acting on the unmounted component. -/
def leakedAfterUnmount (len u : Nat) : List Evt :=
  cleanupQueue (queueAt len u)

/-- Closed form of the cycling state: before the first interval firing at
3000 ms the initial phrase is visible; afterwards, within each 3000 ms
period the first 500 ms are the fade window (fade false), and at the
500 ms mark the index has advanced once more, modulo `len`. -/
def cycleFormula (len i k t : Nat) : Nat × Bool :=
  if t < 3000 * k then (i, true)
  else if (t - 3000 * k) % 3000 < 500 then ((i + (t - 3000 * k) / 3000) % len, false)
  else ((i + (t - 3000 * k) / 3000 + 1) % len, true)

/-! ## Helper lemmas -/

theorem cycleFormula_shift (len i k t : Nat)
    (h : 3000 * k + 500 ≤ t) :
    cycleFormula len ((i + 1) % len) (k + 1) t = cycleFormula len i k t := by
  have hknot : ¬ t < 3000 * k := by omega
  by_cases h1 : t < 3000 * (k + 1)
  · have hz : (t - 3000 * k) / 3000 = 0 := by omega
    have hm : ¬ (t - 3000 * k) % 3000 < 500 := by omega
    rw [cycleFormula, cycleFormula, if_pos h1, if_neg hknot, if_neg hm, hz, Nat.add_zero]
  · have h1' : ¬ t < 3000 * (k + 1) := h1
    have hdiv : (t - 3000 * k) / 3000 = (t - 3000 * (k + 1)) / 3000 + 1 := by omega
    by_cases h2 : (t - 3000 * (k + 1)) % 3000 < 500
    · rw [cycleFormula, cycleFormula, if_neg h1', if_pos h2, if_neg hknot,
        if_pos (show (t - 3000 * k) % 3000 < 500 by omega), Nat.mod_add_mod, hdiv]
      congr 2
      omega
    · rw [cycleFormula, cycleFormula, if_neg h1', if_neg h2, if_neg hknot,
        if_neg (show ¬ (t - 3000 * k) % 3000 < 500 by omega), Nat.add_assoc,
        Nat.mod_add_mod, hdiv]
      congr 2
      omega

theorem runT_cycle (len : Nat) (hlen : 0 < len) :
    ∀ c fuel k i t, 0 < k → i < len → t < 3000 * (k + c) → 2 * c ≤ fuel →
      (runT len fuel t (i, true) [⟨3000 * k, TKind.interval⟩]).1 = cycleFormula len i k t := by
  intro c
  induction c with
  | zero =>
    intro fuel k i t hk hi ht _
    have hlt : t < 3000 * k := by omega
    rw [cycleFormula, if_pos hlt]
    cases fuel with
    | zero => rfl
    | succ f =>
      rw [runT]
      dsimp only
      rw [if_neg (show ¬ 3000 * k ≤ t by omega)]
  | succ c ih =>
    intro fuel k i t hk hi ht hfuel
    by_cases hlt : t < 3000 * k
    · rw [cycleFormula, if_pos hlt]
      cases fuel with
      | zero => rfl
      | succ f =>
        rw [runT]
        dsimp only
        rw [if_neg (show ¬ 3000 * k ≤ t by omega)]
    · push_neg at hlt
      obtain ⟨f, rfl⟩ : ∃ f, fuel = f + 2 := ⟨fuel - 2, by omega⟩
      rw [runT]
      dsimp only
      rw [if_pos (show 3000 * k ≤ t by omega)]
      dsimp only [applyEvt, sched, List.foldl_cons, List.foldl_nil, insertEvt]
      rw [if_neg (show ¬ 3000 * k + 3000 < 3000 * k + 500 by omega)]
      by_cases h5 : t < 3000 * k + 500
      · rw [runT]
        dsimp only
        rw [if_neg (show ¬ 3000 * k + 500 ≤ t by omega)]
        rw [cycleFormula, if_neg (show ¬ t < 3000 * k by omega),
          if_pos (show (t - 3000 * k) % 3000 < 500 by omega)]
        have hz : (t - 3000 * k) / 3000 = 0 := by omega
        simp [hz, Nat.mod_eq_of_lt hi]
      · rw [runT]
        dsimp only
        rw [if_pos (show 3000 * k + 500 ≤ t by omega)]
        dsimp only [applyEvt, sched, List.foldl_nil]
        rw [show 3000 * k + 3000 = 3000 * (k + 1) by ring]
        rw [ih f (k + 1) ((i + 1) % len) t (by omega) (Nat.mod_lt _ hlen) (by omega) (by omega)]
        exact cycleFormula_shift len i k t (by omega)

theorem stateAt_formula (len t : Nat) (hlen : 0 < len) :
    stateAt len t = cycleFormula len 0 1 t := by
  have h := runT_cycle len hlen (t / 3000) (2 * (t / 3000) + 2) 1 0 t (by omega) hlen
    (by omega) (by omega)
  simpa [stateAt, initialQueue] using h

theorem handleDrop_isDraggingAfter (d g : Bool) (p : String) (files : List MFile) :
    (handleDrop d g p files).isDraggingAfter = false := by
  unfold handleDrop
  split
  · rfl
  · cases files with
    | nil => rfl
    | cons f rest =>
      dsimp only
      split <;> rfl

theorem handleDrop_promptAfter (d g : Bool) (p : String) (files : List MFile) :
    (handleDrop d g p files).promptAfter = p := by
  unfold handleDrop
  split
  · rfl
  · cases files with
    | nil => rfl
    | cons f rest =>
      dsimp only
      split <;> rfl

/-! ## Claim theorems -/

/-- C1: for a file whose declared media type starts with image/ or equals
application/pdf, when neither disabled nor generating, a drop and a picker
selection each invoke onGenerate exactly once, with the current prompt and
that file. -/
theorem accepted_file_submits_once (prompt : String) (file : MFile) (rest : List MFile)
    (haccept : (jsStartsWith file.type "image/" || file.type == "application/pdf") = true) :
    (handleDrop false false prompt (file :: rest)).effects = ⟨[(prompt, some file)], []⟩
    ∧ pickFile false false prompt (file :: rest) = ⟨[(prompt, some file)], []⟩ := by
  refine ⟨?_, ?_⟩ <;>
    simp [handleDrop, pickFile, fileInputDisabled, handleFileChange, handleFile, haccept]

theorem accepted_file_submits_once_witness :
    (handleDrop false false "sketch" [⟨"image/png"⟩]).effects
        = ⟨[("sketch", some ⟨"image/png"⟩)], []⟩
    ∧ pickFile false false "sketch" [⟨"image/png"⟩]
        = ⟨[("sketch", some ⟨"image/png"⟩)], []⟩ :=
  accepted_file_submits_once "sketch" ⟨"image/png"⟩ [] (by decide)

/-- C2: handleTextSubmit (and the submit-button and Enter-key paths that
funnel into it) invokes onGenerate exactly once, with the prompt and no
file, iff the trimmed prompt is nonempty and neither generating nor
disabled; otherwise it makes no call. -/
theorem text_submit_iff (disabled isGenerating : Bool) (prompt : String) :
    ((handleTextSubmit disabled isGenerating prompt).calls = [(prompt, none)]
      ↔ (jsTrim prompt ≠ "" ∧ isGenerating = false ∧ disabled = false))
    ∧ (¬(jsTrim prompt ≠ "" ∧ isGenerating = false ∧ disabled = false) →
        (handleTextSubmit disabled isGenerating prompt).calls = [])
    ∧ clickSubmit disabled isGenerating prompt = handleTextSubmit disabled isGenerating prompt
    ∧ pressKey disabled isGenerating "Enter" prompt
        = handleTextSubmit disabled isGenerating prompt := by
  cases disabled <;> cases isGenerating <;>
    by_cases h : jsTrim prompt = "" <;>
      simp [handleTextSubmit, clickSubmit, pressKey, submitButtonDisabled, emptyEffects, h]

theorem text_submit_iff_witness :
    (handleTextSubmit false false "make it dark mode").calls = [("make it dark mode", none)] :=
  (text_submit_iff false false "make it dark mode").1.mpr ⟨by decide, rfl, rfl⟩

/-- C3 counterexample: a drop of a non-image, non-PDF file while the
component is disabled is ignored before validation, so no rejection notice
is produced, contradicting the claim that every rejected file yields one. -/
theorem rejected_drop_while_disabled_silent :
    ((jsStartsWith (MFile.mk "text/plain").type "image/"
        || (MFile.mk "text/plain").type == "application/pdf") = false)
    ∧ (handleDrop true false "draft" [MFile.mk "text/plain"]).effects.alerts = []
    ∧ (handleDrop true false "draft" [MFile.mk "text/plain"]).effects.calls = [] := by
  decide

/-- C3 amended: a file failing the media-type predicate never triggers
onGenerate and never changes the prompt; the rejection notice appears
exactly when validation runs — always on the handleFile path, and on the
drop path exactly when neither disabled nor generating. -/
theorem rejected_file_no_submit (disabled isGenerating : Bool) (prompt : String)
    (file : MFile) (rest : List MFile)
    (hrej : (jsStartsWith file.type "image/" || file.type == "application/pdf") = false) :
    (handleDrop disabled isGenerating prompt (file :: rest)).effects.calls = []
    ∧ (handleDrop disabled isGenerating prompt (file :: rest)).promptAfter = prompt
    ∧ (handleDrop disabled isGenerating prompt (file :: rest)).effects.alerts
        = (if disabled || isGenerating then [] else [alertMsg])
    ∧ (handleFile prompt file).calls = []
    ∧ (handleFile prompt file).alerts = [alertMsg]
    ∧ pickFile disabled isGenerating prompt (file :: rest)
        = (if fileInputDisabled isGenerating disabled then emptyEffects
            else ⟨[], [alertMsg]⟩) := by
  cases disabled <;> cases isGenerating <;>
    simp [handleDrop, handleFile, pickFile, fileInputDisabled, handleFileChange,
      emptyEffects, hrej]

theorem rejected_file_no_submit_witness :
    (handleDrop false false "draft" [MFile.mk "text/plain"]).effects.calls = []
    ∧ (handleDrop false false "draft" [MFile.mk "text/plain"]).promptAfter = "draft"
    ∧ (handleDrop false false "draft" [MFile.mk "text/plain"]).effects.alerts
        = (if (false : Bool) || (false : Bool) then [] else [alertMsg])
    ∧ (handleFile "draft" (MFile.mk "text/plain")).calls = []
    ∧ (handleFile "draft" (MFile.mk "text/plain")).alerts = [alertMsg]
    ∧ pickFile false false "draft" [MFile.mk "text/plain"]
        = (if fileInputDisabled false false then emptyEffects else ⟨[], [alertMsg]⟩) :=
  rejected_file_no_submit false false "draft" (MFile.mk "text/plain") [] (by decide)

/-- C4: while the generating flag is true, no path — drop, picker
selection, submit-button click, or key press — ever invokes onGenerate. -/
theorem no_submit_while_generating (disabled : Bool) (prompt key : String)
    (files : List MFile) :
    (handleDrop disabled true prompt files).effects.calls = []
    ∧ pickFile disabled true prompt files = emptyEffects
    ∧ (handleTextSubmit disabled true prompt).calls = []
    ∧ clickSubmit disabled true prompt = emptyEffects
    ∧ pressKey disabled true key prompt = emptyEffects := by
  refine ⟨?_, ?_, ?_, ?_, ?_⟩ <;>
    simp [handleDrop, pickFile, fileInputDisabled, handleTextSubmit, clickSubmit,
      submitButtonDisabled, pressKey, emptyEffects]

/-- C5: the drag state starts false, every terminal drag event (leave or
drop, on every branch) leaves it false, and whenever it is true the trace
ends in an enabled drag-over followed only by non-terminal events. -/
theorem drag_state_invariant :
    runDrag [] = false
    ∧ (∀ tr e, isTerminal e = true → runDrag (tr ++ [e]) = false)
    ∧ (∀ tr, runDrag tr = true →
        ∃ pre post, tr = pre ++ DragEvt.over false false :: post
          ∧ ∀ e ∈ post, isTerminal e = false) := by
  refine ⟨rfl, ?_, ?_⟩
  · intro tr e he
    rw [runDrag, List.foldl_append]
    cases e with
    | over d g => simp [isTerminal] at he
    | leave => rfl
    | drop d g files =>
      simp only [List.foldl_cons, List.foldl_nil, dragStep]
      exact handleDrop_isDraggingAfter d g "" files
  · intro tr
    induction tr using List.reverseRecOn with
    | nil => intro h; exact absurd h (by simp [runDrag])
    | append_singleton pre' e ih =>
      intro h
      rw [runDrag, List.foldl_append] at h
      simp only [List.foldl_cons, List.foldl_nil] at h
      cases e with
      | leave => simp [dragStep, handleDragLeave] at h
      | drop d g files =>
        rw [dragStep, handleDrop_isDraggingAfter] at h
        exact absurd h (by simp)
      | over d g =>
        rw [dragStep, handleDragOver] at h
        by_cases hd : d = false ∧ g = false
        · exact ⟨pre', [], by rw [hd.1, hd.2], by simp⟩
        · have hstay : (!d && !g) = false := by
            cases d <;> cases g <;> simp_all
          rw [hstay] at h
          simp only [Bool.false_eq_true, if_false] at h
          obtain ⟨pre, post, heq, hpost⟩ := ih h
          refine ⟨pre, post ++ [DragEvt.over d g], ?_, ?_⟩
          · rw [heq]; simp
          · intro x hx
            rcases List.mem_append.mp hx with hx | hx
            · exact hpost x hx
            · rcases List.mem_singleton.mp hx with rfl; rfl

theorem drag_state_invariant_witness :
    runDrag [DragEvt.over false false, DragEvt.leave] = false :=
  drag_state_invariant.2.1 [DragEvt.over false false] DragEvt.leave rfl

/-- C6: the picker path and the drop path produce identical effects on
every input (same accept predicate, same submission, same rejection), the
picker control is disabled exactly when generating or disabled, and when
enabled both submit exactly the accepted files and alert on the rest. -/
theorem picker_refines_drop (disabled isGenerating : Bool) (prompt : String)
    (files : List MFile) :
    pickFile disabled isGenerating prompt files
        = (handleDrop disabled isGenerating prompt files).effects
    ∧ fileInputDisabled isGenerating disabled = (isGenerating || disabled)
    ∧ (disabled = false → isGenerating = false → ∀ file rest, files = file :: rest →
        ((jsStartsWith file.type "image/" || file.type == "application/pdf") = true →
          pickFile disabled isGenerating prompt files = ⟨[(prompt, some file)], []⟩)
        ∧ ((jsStartsWith file.type "image/" || file.type == "application/pdf") = false →
          pickFile disabled isGenerating prompt files = ⟨[], [alertMsg]⟩)) := by
  refine ⟨?_, rfl, ?_⟩
  · cases disabled <;> cases isGenerating <;> cases files <;>
      simp only [pickFile, fileInputDisabled, handleFileChange, handleDrop, handleFile,
        Bool.or_self, Bool.or_false, Bool.false_or, Bool.or_true, Bool.true_or,
        if_true, if_false, Bool.false_eq_true, emptyEffects] <;>
      · split <;> rfl
  · rintro rfl rfl file rest rfl
    constructor <;> intro hpred <;>
      simp [pickFile, fileInputDisabled, handleFileChange, handleFile, hpred]

theorem picker_refines_drop_witness :
    pickFile false false "p" [MFile.mk "image/png"]
        = ⟨[("p", some (MFile.mk "image/png"))], []⟩ :=
  ((picker_refines_drop false false "p" [MFile.mk "image/png"]).2.2 rfl rfl
    (MFile.mk "image/png") [] rfl).1 (by decide)

/-- C9: a drop with no files, and a picker change with an empty file list,
make no call and raise no alert, while the drop handler still resets the
drag state and leaves the prompt unchanged. -/
theorem empty_payload_silent_noop (disabled isGenerating : Bool) (prompt : String) :
    handleDrop disabled isGenerating prompt [] = ⟨emptyEffects, false, prompt⟩
    ∧ handleFileChange prompt [] = emptyEffects
    ∧ pickFile disabled isGenerating prompt [] = emptyEffects := by
  refine ⟨?_, rfl, ?_⟩
  · unfold handleDrop; split <;> rfl
  · unfold pickFile; split <;> rfl

/-- C10: trimming is only an emptiness gate — the value passed to
onGenerate is the original prompt, whitespace and all, on the text path
and on both file paths. -/
theorem prompt_passed_verbatim (prompt : String) (h : jsTrim prompt ≠ "")
    (file : MFile)
    (haccept : (jsStartsWith file.type "image/" || file.type == "application/pdf") = true) :
    (handleTextSubmit false false prompt).calls = [(prompt, none)]
    ∧ (handleFile prompt file).calls = [(prompt, some file)]
    ∧ (handleDrop false false prompt [file]).effects.calls = [(prompt, some file)] := by
  refine ⟨?_, ?_, ?_⟩ <;> simp [handleTextSubmit, handleFile, handleDrop, h, haccept]

theorem prompt_passed_verbatim_witness :
    (handleTextSubmit false false "  hi  ").calls = [("  hi  ", none)]
    ∧ (handleFile "  hi  " (MFile.mk "image/png")).calls
        = [("  hi  ", some (MFile.mk "image/png"))]
    ∧ (handleDrop false false "  hi  " [MFile.mk "image/png"]).effects.calls
        = [("  hi  ", some (MFile.mk "image/png"))] :=
  prompt_passed_verbatim "  hi  " (by decide) (MFile.mk "image/png") (by decide)

/-- C7: the cycling placeholder follows the two-phase timing contract.
In general `stateAt` matches the closed form: visible with index 0 until
3000 ms; within each later 3000 ms period, fade is false for the first
500 ms, and exactly at the 500 ms mark the index has advanced once more
modulo the list length.  In particular phrase 0 is visible until 3000 ms,
fading during 3000 to 3500 ms, and phrase 1 is visible from 3500 ms. -/
theorem cycling_two_phase (len t : Nat) (hlen : 0 < len) :
    stateAt len t = cycleFormula len 0 1 t
    ∧ (t < 3000 → stateAt len t = (0, true))
    ∧ (3000 ≤ t → t < 3500 → stateAt len t = (0, false))
    ∧ (2 ≤ len → 3500 ≤ t → t < 6000 → stateAt len t = (1, true)) := by
  have hform := stateAt_formula len t hlen
  refine ⟨hform, ?_, ?_, ?_⟩
  · intro h
    rw [hform, cycleFormula, if_pos (by omega)]
  · intro h1 h2
    rw [hform, cycleFormula, if_neg (by omega), if_pos (by omega)]
    have hz : (t - 3000 * 1) / 3000 = 0 := by omega
    simp [hz]
  · intro hlen2 h1 h2
    rw [hform, cycleFormula, if_neg (by omega), if_neg (by omega)]
    have hz : (t - 3000 * 1) / 3000 = 0 := by omega
    rw [hz]
    simp only [Nat.add_zero, Nat.zero_add]
    rw [Nat.mod_eq_of_lt (by omega)]

theorem cycling_two_phase_witness :
    stateAt words.length 3500 = (1, true) :=
  (cycling_two_phase words.length 3500 (by decide)).2.2.2 (by decide) (by decide) (by decide)

/-- C8 is refuted by the code: the effect cleanup runs only
`clearInterval(interval)`, so unmounting at 3200 ms — after the interval
firing at 3000 ms but before its nested 500 ms timeout — leaves that
timeout pending.  It fires at 3500 ms on the unmounted component,
advancing the index and flipping the fade flag once more. -/
theorem unmount_leaks_fade_timeout :
    leakedAfterUnmount words.length 3200 = [⟨3500, TKind.timeout⟩]
    ∧ stateAt words.length 3200 = (0, false)
    ∧ applyEvt words.length (stateAt words.length 3200) TKind.timeout = (1, true) := by
  decide

end InputArea
